import Mathlib

/-!
# NAT-TestServer: the packet processor, the two connection handlers and the save loop

A shallow embedding of `server.go`.  Everything the Go code obtains from outside
(the clock, the schema validator, the JSON codec, the sockets, the UUID source) is an
explicit input of the embedded function; everything it does to the outside (channel
sends, sleeps, socket writes, uploads, log lines) is recorded, in program order, in a
list of `Event`s.
-/

set_option maxRecDepth 100000

namespace NatTestServer

/-! ## Data model -/

/-- A Go byte sequence (`[]byte`).  A byte is written as the character with that code;
`[]byte(s)` is `s.toList` and `string(b)` is `String.mk b`. -/
abbrev Bytes := List Char

/-- A Go `error` value, identified by its message. -/
structure GoError where
  msg : String
deriving DecidableEq, Repr

/-- Go `type Packet struct` (server.go 24-31); `int` is a 64-bit signed integer. -/
structure Packet where
  Operator : String
  IP : String
  CellId : Int
  UEMode : Int
  ICCID : String
  Interval : Int
deriving DecidableEq, Repr

/-- Go `type SaveData struct` (server.go 33-39). -/
structure SaveData where
  Received : String
  Protocol : String
  IP : String
  Timeout : Bool
  Data : Packet
deriving DecidableEq, Repr

/-- A `time.Time` value, held as the calendar fields `Format` prints:
the date and clock in the value's own zone, and that zone's offset in seconds east of UTC. -/
structure Time where
  year : Int
  month : Nat
  day : Nat
  hour : Nat
  minute : Nat
  second : Nat
  nanosecond : Nat
  offset : Int
deriving DecidableEq, Repr

/-- Go `type SaveRoutineStruct struct` (server.go 41-44). -/
structure SaveRoutineStruct where
  Timestamp : Time
  Data : SaveData
deriving DecidableEq, Repr

/-- The zero `time.Time`: January 1 of year 1, 00:00:00 UTC. -/
def Time.zero : Time := ⟨1, 1, 1, 0, 0, 0, 0, 0⟩

/-- The zero `Packet`. -/
def Packet.zero : Packet := ⟨"", "", 0, 0, "", 0⟩

/-- The composite literal `SaveRoutineStruct{}`. -/
def SaveRoutineStruct.zero : SaveRoutineStruct := ⟨Time.zero, ⟨"", "", "", false, Packet.zero⟩⟩

/-! ## Constants (server.go 46-52) -/

def newPacketTimeout : Int := 10

def maxBufferSize : Nat := 256

def timeFormat : String := "2006-01-02T15:04:05.00-0700"

def dcBuffer : Bytes := "Error occured.\nConnection closed.\n".toList

/-! ## Library functions the program calls -/

/-- Go's `strconv.Itoa`: the decimal rendering of an `int`. -/
def Itoa (i : Int) : String :=
  match i with
  | Int.ofNat n => Nat.repr n
  | Int.negSucc n => "-" ++ Nat.repr (n + 1)

/-- The function `appendInt` of package `time`: a minus sign for a negative number, then the decimal
digits of its magnitude, padded on the left with zeros to at least `width` digits. -/
def appendInt (x : Int) (width : Nat) : List Char :=
  let ds := Nat.toDigits 10 x.natAbs
  (if x < 0 then ['-'] else []) ++ (List.replicate (width - ds.length) '0' ++ ds)

/-- The zone element `-0700`: sign, then hours and minutes of the offset. -/
def appendZone (offset : Int) : List Char :=
  let zone := Int.tdiv offset 60
  let z := zone.natAbs
  (if zone < 0 then ['-'] else ['+']) ++ appendInt (z / 60) 2 ++ appendInt (z % 60) 2

/-- The layout interpreter of `time.Time.Format`, for the layout elements this program
uses: `2006` year, `01` month, `02` day of month, `15` hour (00-23), `04` minute,
`05` second, `.00` two digits of fractional second, `-0700` zone offset.
Every other character of a layout is copied. -/
def formatLayout (t : Time) : List Char → List Char
  | '2' :: '0' :: '0' :: '6' :: rest => appendInt t.year 4 ++ formatLayout t rest
  | '-' :: '0' :: '7' :: '0' :: '0' :: rest => appendZone t.offset ++ formatLayout t rest
  | '.' :: '0' :: '0' :: rest =>
      '.' :: (appendInt t.nanosecond 9).take 2 ++ formatLayout t rest
  | '0' :: '1' :: rest => appendInt t.month 2 ++ formatLayout t rest
  | '0' :: '2' :: rest => appendInt t.day 2 ++ formatLayout t rest
  | '1' :: '5' :: rest => appendInt t.hour 2 ++ formatLayout t rest
  | '0' :: '4' :: rest => appendInt t.minute 2 ++ formatLayout t rest
  | '0' :: '5' :: rest => appendInt t.second 2 ++ formatLayout t rest
  | c :: rest => c :: formatLayout t rest
  | [] => []

/-- The method call `t.Format(layout)`. -/
def Time.Format (t : Time) (layout : String) : String :=
  String.mk (formatLayout t layout.toList)

/-- The result of an `int64` computation whose exact value is `x`: Go integer arithmetic
wraps around modulo `2^64`. -/
def wrapInt64 (x : Int) : Int :=
  (x + 2 ^ 63) % 2 ^ 64 - 2 ^ 63

/-- The constant `time.Second`, in nanoseconds. -/
def Second : Int := 1000000000

/-- What the program takes from the schema validator and the JSON codec.
`Validate b` is `gojsonschema.Validate(schemaLoader, NewStringLoader(string(b)))`:
an error, or the verdict `result.Valid()`.  `Unmarshal b` is `json.Unmarshal(b, &packet)`.
`Marshal d` is `json.Marshal(d)`: the returned bytes and the returned error. -/
structure Env where
  Validate : Bytes → Except GoError Bool
  Unmarshal : Bytes → Except GoError Packet
  Marshal : SaveData → Bytes × Option GoError

/-! ## Effects -/

/-- What the program does to its surroundings, one constructor per kind of call. -/
inductive Event where
  /-- The send `saveChan <- r`. -/
  | send (r : SaveRoutineStruct)
  /-- The call `time.Sleep(d)`, with `d` in nanoseconds. -/
  | sleep (d : Int)
  /-- The call `conn.Read(buffer)`. -/
  | read
  /-- The call `conn.Write(b)` or `pc.WriteTo(b, addr)`. -/
  | write (b : Bytes)
  /-- The call `conn.Close()`. -/
  | close
  /-- The call `log.Printf(format, args...)`. -/
  | log (format : String) (args : List String)
  /-- The launch `go svc.PutObjectWithContext(ctx, ...)`, with a context that is cancelled
  after `timeout` seconds. -/
  | upload (bucket key body : String) (timeout : Int)
deriving DecidableEq, Repr

/-! ## HandleData (server.go 106-131) -/

/-- The three values `HandleData` returns; a nil slice and a nil error are `none`. -/
structure HandleDataResult where
  resp : Option Bytes
  saveData : SaveRoutineStruct
  err : Option GoError
deriving DecidableEq, Repr

/-- The function `HandleData(buffer, protocol, addr)`.  `startTime` is what `time.Now()` returns on
line 107 and `endNow` what it returns on line 128.  The send on `saveChan` is recorded as
completed: the consumer loop runs for the life of the process. -/
def HandleData (env : Env) (startTime endNow : Time) (buffer : Bytes)
    (protocol addr : String) : HandleDataResult × List Event :=
  match env.Validate buffer with
  | .error err => (⟨none, SaveRoutineStruct.zero, some err⟩, [])
  | .ok false => (⟨none, SaveRoutineStruct.zero, some ⟨"Wrong format in packet"⟩⟩, [])
  | .ok true =>
    match env.Unmarshal buffer with
    | .error err => (⟨none, SaveRoutineStruct.zero, some err⟩, [])
    | .ok packet =>
      let saveData : SaveRoutineStruct :=
        { Timestamp := startTime
          Data := { Received := startTime.Format timeFormat, Protocol := protocol, IP := addr,
                    Timeout := false, Data := packet } }
      let endTime := endNow.Format timeFormat
      let retString := "Interval: " ++ Itoa packet.Interval ++ "\nReceived:"
        ++ startTime.Format timeFormat ++ "\nReturned: " ++ endTime ++ "\n"
      (⟨some retString.toList, saveData, none⟩,
        [Event.send saveData, Event.sleep (wrapInt64 (packet.Interval * Second))])

/-! ## Reading from a socket into a fresh buffer -/

/-- The Go slice expression `b[:hi]` on a slice whose length equals its capacity:
`none` is the run-time failure "slice bounds out of range". -/
def sliceTo (b : Bytes) (hi : Int) : Option Bytes :=
  if 0 ≤ hi ∧ hi ≤ (b.length : Int) then some (b.take hi.toNat) else none

/-- One result of `conn.Read(buffer)` / `pc.ReadFrom(buffer)`: the bytes the transport
delivers to this call and the error it reports. -/
structure ReadResult where
  data : Bytes
  err : Option GoError
deriving DecidableEq, Repr

/-- The `n` a read returns: the number of bytes copied into the buffer. -/
def ReadResult.n (r : ReadResult) : Int :=
  ((min r.data.length maxBufferSize : Nat) : Int)

/-- The buffer after the read: `make([]byte, maxBufferSize)` with the first `n` bytes filled. -/
def ReadResult.buffer (r : ReadResult) : Bytes :=
  r.data.take maxBufferSize ++ List.replicate (maxBufferSize - r.data.length) (Char.ofNat 0)

/-! ## HandleUDP (server.go 133-152) and AcceptUDP (server.go 189-200) -/

/-- The record a handler sends after a failed write: `saveData.Data.Timeout = true`. -/
def markTimeout (saveData : SaveRoutineStruct) : SaveRoutineStruct :=
  { saveData with Data := { saveData.Data with Timeout := true } }

/-- The function `HandleUDP(pc, addr, buffer)`; `addr` is `addr.String()` and `writeErr` the error
`pc.WriteTo(retBuffer, addr)` returns. -/
def HandleUDP (env : Env) (startTime endNow : Time) (writeErr : Option GoError)
    (addr : String) (buffer : Bytes) : List Event :=
  match HandleData env startTime endNow buffer "UDP" addr with
  | (res, evs) =>
    match res.err with
    | some _ =>
      evs ++ [Event.log "Invalid UDP Packet received from %s. Connection terminated.\n" [addr],
              Event.write dcBuffer]
    | none =>
      let evs := evs ++ [Event.log "UDP Packet received from %s\n" [addr],
                         Event.write (res.resp.getD [])]
      match writeErr with
      | some err =>
        evs ++ [Event.log "UDP write to %s failed, error: %s\n" [addr, err.msg],
                Event.send (markTimeout res.saveData)]
      | none => evs ++ [Event.log "Packet sent to %s\n" [addr]]

/-- What one turn of the `AcceptUDP` loop does with the result of `pc.ReadFrom`. -/
inductive AcceptStep where
  /-- The loop does `continue` after a read error. -/
  | skip
  /-- The loop does `go HandleUDP(pc, addr, packet)`. -/
  | spawn (addr : String) (packet : Bytes)
  /-- The slice expression fails at run time, which ends the process. -/
  | crash
deriving DecidableEq, Repr

/-- One turn of the loop in `AcceptUDP`. -/
def AcceptUDP (r : ReadResult) (addr : String) : AcceptStep :=
  match r.err with
  | some _ => AcceptStep.skip
  | none =>
    match sliceTo r.buffer (r.n - 1) with
    | none => AcceptStep.crash
    | some packet => AcceptStep.spawn addr packet

/-! ## HandleTCP (server.go 154-187) -/

/-- Everything one turn of the `HandleTCP` loop takes from outside: the result of
`conn.Read`, the two clock readings of `HandleData`, and the error `conn.Write(retBuffer)`
returns. -/
structure Exchange where
  read : ReadResult
  startTime : Time
  endNow : Time
  writeErr : Option GoError
deriving DecidableEq, Repr

/-- How a run of `HandleTCP` ends. -/
inductive Exit where
  /-- The function returned. -/
  | returned
  /-- The list of read results is used up: the handler waits in `conn.Read`. -/
  | waiting
  /-- The slice expression failed at run time. -/
  | crashed
deriving DecidableEq, Repr

/-- The function `HandleTCP(conn)`, run against the list of results the connection gives to the
successive turns of the loop; `remote` is `conn.RemoteAddr().String()`. -/
def HandleTCP (env : Env) (remote : String) : List Exchange → List Event × Exit
  | [] => ([Event.read], Exit.waiting)
  | x :: rest =>
    match x.read.err with
    | some _ => ([Event.read, Event.write dcBuffer, Event.close], Exit.returned)
    | none =>
      match sliceTo x.read.buffer (x.read.n - 1) with
      | none => ([Event.read], Exit.crashed)
      | some packet =>
        match HandleData env x.startTime x.endNow packet "TCP" remote with
        | (res, evs) =>
          match res.err with
          | some _ =>
            (Event.read :: evs ++
              [Event.log "Invalid TCP Packet received from %s. Connection terminated.\n" [remote],
               Event.write dcBuffer, Event.close], Exit.returned)
          | none =>
            let evs := Event.read :: evs ++
              [Event.log "TCP Packet received from %s\n" [remote],
               Event.write (res.resp.getD [])]
            match x.writeErr with
            | some _ =>
              (evs ++ [Event.log "TCP write to %s failed. Connection terminated\n" [remote],
                       Event.send (markTimeout res.saveData), Event.close], Exit.returned)
            | none =>
              match HandleTCP env remote rest with
              | (later, exit) =>
                (evs ++ Event.log "Packet sent to %s\n" [remote] :: later, exit)

/-! ## SaveRoutine (server.go 68-103) -/

/-- The body of the `for i := range saveChan` loop for one received record `i`;
`newUUID` is the text `%s` prints for the value `uuid.NewRandom()` returned. -/
def saveOne (env : Env) (awsBucket : String) (i : SaveRoutineStruct) (newUUID : String) :
    List Event :=
  match env.Marshal i.Data with
  | (buffer, err) =>
    let logged := match err with
      | some e => [Event.log "JSON invalid. Cannot write to file, error:%d\n" [e.msg]]
      | none => []
    let key := i.Timestamp.Format "2006/01/02" ++ "/" ++ i.Data.IP ++ "-"
      ++ i.Timestamp.Format "150405" ++ "-" ++ newUUID ++ ".json"
    logged ++ [Event.upload awsBucket key (String.mk buffer) newPacketTimeout]

/-- The consumer loop of `SaveRoutine`, run on the records received from `saveChan`, each
paired with the identifier generated for it. -/
def SaveRoutine (env : Env) (awsBucket : String) :
    List (SaveRoutineStruct × String) → List Event
  | [] => []
  | (i, newUUID) :: rest => saveOne env awsBucket i newUUID ++ SaveRoutine env awsBucket rest

/-! ## A concrete validator and codec

The theorems below hold for every `Env`.  To run the program on concrete packets, this
section gives one executable `Env`.  It reads JSON documents of the shape the devices
send: one flat object, the keys spelled as in the schema, each value a string without
escapes or an integer without fraction or exponent.  On such documents it follows
`gojsonschema` (an integer of any size has type `integer`) and `encoding/json` (a number
that does not fit the 64-bit `int` field cannot be decoded).  Any other input is reported
as an error. -/

/-- A JSON value of a flat document. -/
inductive JValue where
  | str (s : String)
  | int (i : Int)
deriving DecidableEq, Repr

/-- A lexical token of a flat JSON document. -/
inductive Token where
  | lbrace
  | rbrace
  | colon
  | comma
  | str (s : List Char)
  | num (neg : Bool) (digits : List Char)
deriving DecidableEq, Repr

/-- What the lexer is in the middle of. -/
inductive LexMode where
  | idle
  | inStr (acc : List Char)
  | inNum (neg : Bool) (acc : List Char)
deriving DecidableEq, Repr

/-- The token a character outside strings and numbers completes, and the mode it opens;
`none` for a character that cannot occur there. -/
def lexStart (c : Char) : Option (Option Token × LexMode) :=
  if c = '\x7b' then some (some Token.lbrace, LexMode.idle)
  else if c = '\x7d' then some (some Token.rbrace, LexMode.idle)
  else if c = ':' then some (some Token.colon, LexMode.idle)
  else if c = ',' then some (some Token.comma, LexMode.idle)
  else if c = ' ' ∨ c = '\t' ∨ c = '\n' ∨ c = '\r' then some (none, LexMode.idle)
  else if c = '"' then some (none, LexMode.inStr [])
  else if c = '-' then some (none, LexMode.inNum true [])
  else if c.isDigit then some (none, LexMode.inNum false [c])
  else none

/-- Put an optional token in front of the tokens that follow. -/
def emit (t : Option Token) (rest : Option (List Token)) : Option (List Token) :=
  match t, rest with
  | _, none => none
  | none, some ts => some ts
  | some t, some ts => some (t :: ts)

/-- The lexer: one pass over the bytes of the document. -/
def lex : LexMode → List Char → Option (List Token)
  | LexMode.idle, [] => some []
  | LexMode.inStr _, [] => none
  | LexMode.inNum neg acc, [] => some [Token.num neg acc]
  | LexMode.idle, c :: cs =>
    match lexStart c with
    | none => none
    | some (t, mode) => emit t (lex mode cs)
  | LexMode.inStr acc, c :: cs =>
    if c = '"' then emit (some (Token.str acc)) (lex LexMode.idle cs)
    else if c = '\\' ∨ c.toNat < 32 then none
    else lex (LexMode.inStr (acc ++ [c])) cs
  | LexMode.inNum neg acc, c :: cs =>
    if c.isDigit then lex (LexMode.inNum neg (acc ++ [c])) cs
    else
      match lexStart c with
      | none => none
      | some (t, mode) => emit (some (Token.num neg acc)) (emit t (lex mode cs))

/-- The number a run of decimal digits denotes. -/
def digitsValue (ds : List Char) : Nat :=
  ds.foldl (fun acc c => 10 * acc + (c.toNat - 48)) 0

/-- The value a token stands for; a number needs a digit and no superfluous leading zero. -/
def tokenValue : Token → Option JValue
  | Token.str s => some (JValue.str (String.mk s))
  | Token.num neg ds =>
    if ds = [] ∨ (ds.head? = some '0' ∧ ds.length ≠ 1) then none
    else some (JValue.int (if neg then -(digitsValue ds : Int) else (digitsValue ds : Int)))
  | _ => none

/-- The members after the first one, up to the closing brace. -/
def parseMore : List Token → Option (List (String × JValue))
  | [Token.rbrace] => some []
  | Token.comma :: Token.str k :: Token.colon :: v :: rest =>
    match tokenValue v, parseMore rest with
    | some x, some xs => some ((String.mk k, x) :: xs)
    | _, _ => none
  | _ => none

/-- A whole document: one object. -/
def parseObject : List Token → Option (List (String × JValue))
  | [Token.lbrace, Token.rbrace] => some []
  | Token.lbrace :: Token.str k :: Token.colon :: v :: rest =>
    match tokenValue v, parseMore rest with
    | some x, some xs => some ((String.mk k, x) :: xs)
    | _, _ => none
  | _ => none

/-- The members of the document in `b`, in the order written. -/
def parseJSON (b : Bytes) : Option (List (String × JValue)) :=
  match lex LexMode.idle b with
  | none => none
  | some ts => parseObject ts

/-- The value of member `k`; of two members with one key the later one counts. -/
def member (k : String) : List (String × JValue) → Option JValue
  | [] => none
  | (k', v) :: rest =>
    match member k rest with
    | some w => some w
    | none => if k' = k then some v else none

/-- Schema type `string`. -/
def isString : Option JValue → Bool
  | some (JValue.str _) => true
  | _ => false

/-- Schema type `integer`. -/
def isInteger : Option JValue → Bool
  | some (JValue.int _) => true
  | _ => false

/-- Modelled from the spec: the schema document `schema.json`, which is not among the
sources.  The wire format has the fields operator `op` (string), `ip` (string), `cell_id`
(integer), `ue_mode` (integer), `iccid` (string), `interval` (integer); a packet that
misses one of them, or carries one with another primitive type, is invalid. -/
def schemaValid (doc : List (String × JValue)) : Bool :=
  isString (member "op" doc) && isString (member "ip" doc) && isInteger (member "cell_id" doc)
    && isInteger (member "ue_mode" doc) && isString (member "iccid" doc)
    && isInteger (member "interval" doc)

/-- The call of `gojsonschema.Validate` against that schema: an error for a document that cannot be
read, else the verdict. -/
def goValidate (b : Bytes) : Except GoError Bool :=
  match parseJSON b with
  | none => Except.error ⟨"invalid character in JSON document"⟩
  | some doc => Except.ok (schemaValid doc)

/-- Whether `i` is a value of Go's 64-bit `int`. -/
def fitsInt64 (i : Int) : Bool :=
  decide (-(2 : Int) ^ 63 ≤ i) && decide (i < (2 : Int) ^ 63)

/-- The decoding of a JSON value into a Go `string` field. -/
def toStringField (k : String) : JValue → Except GoError String
  | JValue.str s => Except.ok s
  | JValue.int _ =>
    Except.error ⟨"json: cannot unmarshal number into Go struct field Packet." ++ k ++ " of type string"⟩

/-- The decoding of a JSON value into a Go `int` field: a number outside the 64-bit range
is an error. -/
def toIntField (k : String) : JValue → Except GoError Int
  | JValue.int i =>
    if fitsInt64 i then Except.ok i
    else Except.error ⟨"json: cannot unmarshal number into Go struct field Packet." ++ k ++ " of type int"⟩
  | JValue.str _ =>
    Except.error ⟨"json: cannot unmarshal string into Go struct field Packet." ++ k ++ " of type int"⟩

/-- Store one member of the document in the struct; a key that names no field is skipped. -/
def setField (p : Packet) (k : String) (v : JValue) : Except GoError Packet :=
  if k = "op" then (toStringField k v).map (fun s => { p with Operator := s })
  else if k = "ip" then (toStringField k v).map (fun s => { p with IP := s })
  else if k = "cell_id" then (toIntField k v).map (fun i => { p with CellId := i })
  else if k = "ue_mode" then (toIntField k v).map (fun i => { p with UEMode := i })
  else if k = "iccid" then (toStringField k v).map (fun s => { p with ICCID := s })
  else if k = "interval" then (toIntField k v).map (fun i => { p with Interval := i })
  else Except.ok p

/-- Store the members one after the other. -/
def setFields (p : Packet) : List (String × JValue) → Except GoError Packet
  | [] => Except.ok p
  | (k, v) :: rest =>
    match setField p k v with
    | Except.error e => Except.error e
    | Except.ok q => setFields q rest

/-- The call `json.Unmarshal(b, &packet)` for a zero `packet`: the members are stored in
the order written, and any member that does not fit its field makes the call fail. -/
def goUnmarshal (b : Bytes) : Except GoError Packet :=
  match parseJSON b with
  | none => Except.error ⟨"invalid character in JSON document"⟩
  | some doc => setFields Packet.zero doc

/-- A JSON string literal for a string that needs no escapes. -/
def quoted (s : String) : String :=
  "\"" ++ s ++ "\""

/-- The call `json.Marshal(d)` for a `SaveData` whose strings need no escapes. -/
def goMarshal (d : SaveData) : Bytes × Option GoError :=
  (("\x7b\"Received\":" ++ quoted d.Received ++ ",\"Protocol\":" ++ quoted d.Protocol
      ++ ",\"IP\":" ++ quoted d.IP ++ ",\"Timeout\":" ++ (if d.Timeout then "true" else "false")
      ++ ",\"Data\":\x7b\"op\":" ++ quoted d.Data.Operator ++ ",\"ip\":" ++ quoted d.Data.IP
      ++ ",\"cell_id\":" ++ Itoa d.Data.CellId ++ ",\"ue_mode\":" ++ Itoa d.Data.UEMode
      ++ ",\"iccid\":" ++ quoted d.Data.ICCID ++ ",\"interval\":" ++ Itoa d.Data.Interval
      ++ "\x7d\x7d").toList, none)

/-- The executable environment. -/
def goEnv : Env := ⟨goValidate, goUnmarshal, goMarshal⟩

/-! ## Concrete inputs -/

/-- The packet of the specification's scenario, without the framing byte. -/
def packetA : Bytes :=
  "\x7b\"op\":\"A\",\"ip\":\"10.0.0.1\",\"cell_id\":1,\"ue_mode\":0,\"iccid\":\"123\",\"interval\":0\x7d".toList

/-- A second valid packet, with interval 7. -/
def packetB : Bytes :=
  "\x7b\"op\":\"B\",\"ip\":\"10.0.0.2\",\"cell_id\":2,\"ue_mode\":1,\"iccid\":\"456\",\"interval\":7\x7d".toList

/-- The packet of the specification's second scenario: required fields are missing. -/
def packetShort : Bytes := "\x7b\"op\":\"A\"\x7d".toList

/-- A packet whose interval is the integer `2^63`, one more than the largest `int`. -/
def packetHuge : Bytes :=
  "\x7b\"op\":\"A\",\"ip\":\"10.0.0.1\",\"cell_id\":1,\"ue_mode\":0,\"iccid\":\"123\",\"interval\":9223372036854775808\x7d".toList

/-- A packet whose interval, 9223372037 seconds, exceeds what a `time.Duration` holds. -/
def packetLong : Bytes :=
  "\x7b\"op\":\"A\",\"ip\":\"10.0.0.1\",\"cell_id\":1,\"ue_mode\":0,\"iccid\":\"123\",\"interval\":9223372037\x7d".toList

/-- 7 March 2024, 09:05:03.123456789, zone +01:00. -/
def timeA : Time := ⟨2024, 3, 7, 9, 5, 3, 123456789, 3600⟩

/-- 7 March 2024, 09:05:10.5, zone +01:00. -/
def timeB : Time := ⟨2024, 3, 7, 9, 5, 10, 500000000, 3600⟩

/-- The sender address used in the examples. -/
def peer : String := "10.0.0.1:4000"

/-- A turn of the stream loop that reads `packetA` and a framing byte; the write succeeds. -/
def exchangeA : Exchange := ⟨⟨packetA ++ ['\n'], none⟩, timeA, timeB, none⟩

/-- A turn of the stream loop that reads `packetB` and a framing byte; the write succeeds. -/
def exchangeB : Exchange := ⟨⟨packetB ++ ['\n'], none⟩, timeB, timeB, none⟩

/-- A turn that reads `packetA` and a framing byte; the write of the acknowledgment fails. -/
def exchangeLost : Exchange :=
  ⟨⟨packetA ++ ['\n'], none⟩, timeA, timeB, some ⟨"write: broken pipe"⟩⟩

/-- A turn that reads the invalid `packetShort` and a framing byte. -/
def exchangeShort : Exchange := ⟨⟨packetShort ++ ['\n'], none⟩, timeA, timeB, none⟩

/-- The record of `packetA`, received at `timeA` over the given transport from `peer`. -/
def recordA (protocol : String) : SaveRoutineStruct :=
  ⟨timeA, ⟨"2024-03-07T09:05:03.12+0100", protocol, peer, false,
    ⟨"A", "10.0.0.1", 1, 0, "123", 0⟩⟩⟩

/-! ## Observations on a run -/

/-- The records sent on `saveChan`, in order. -/
def sends : List Event → List SaveRoutineStruct
  | [] => []
  | Event.send r :: es => r :: sends es
  | _ :: es => sends es

/-- The durations passed to `time.Sleep`, in order. -/
def sleeps : List Event → List Int
  | [] => []
  | Event.sleep d :: es => d :: sleeps es
  | _ :: es => sleeps es

/-- The byte sequences written to the peer, in order. -/
def writes : List Event → List Bytes
  | [] => []
  | Event.write b :: es => b :: writes es
  | _ :: es => writes es

/-- The uploads launched, as pairs of object key and object body, in order. -/
def uploads : List Event → List (String × String)
  | [] => []
  | Event.upload _ key body _ :: es => (key, body) :: uploads es
  | _ :: es => uploads es

/-- The packet a turn of the stream loop hands to `HandleData`: `buffer[:n-1]`. -/
def Exchange.packet (x : Exchange) : Option Bytes :=
  sliceTo x.read.buffer (x.read.n - 1)

/-- What `HandleData` returns and does in the turn `x` of the stream loop. -/
def Exchange.handled (env : Env) (remote : String) (x : Exchange) :
    Option (HandleDataResult × List Event) :=
  x.packet.map (fun packet => HandleData env x.startTime x.endNow packet "TCP" remote)

/-- The turn `x` reads a packet, `HandleData` accepts it and the write succeeds. -/
def Exchange.succeeds (env : Env) (remote : String) (x : Exchange) : Prop :=
  x.read.err = none ∧ x.writeErr = none ∧
    ∃ out, x.handled env remote = some out ∧ out.1.err = none

/-- The read of turn `x` fails, or `HandleData` rejects its packet. -/
def Exchange.fails (env : Env) (remote : String) (x : Exchange) : Prop :=
  x.read.err ≠ none ∨ ∃ out, x.handled env remote = some out ∧ out.1.err ≠ none

/-- The acknowledgment of turn `x`: the response `HandleData` returns for its packet. -/
def Exchange.ack (env : Env) (remote : String) (x : Exchange) : Bytes :=
  match x.handled env remote with
  | some out => out.1.resp.getD []
  | none => []

/-- The decimal rendering of `n` in exactly `width` digits (the low `width` digits). -/
def fixedDigits : Nat → Nat → List Char
  | 0, _ => []
  | width + 1, n => fixedDigits width (n / 10) ++ [Nat.digitChar (n % 10)]

/-- A timestamp of the common era with a four-digit year: the calendar fields are in
their ranges. -/
def Time.inRange (t : Time) : Prop :=
  0 ≤ t.year ∧ t.year ≤ 9999 ∧ 1 ≤ t.month ∧ t.month ≤ 12 ∧ 1 ≤ t.day ∧ t.day ≤ 31 ∧
    t.hour < 24 ∧ t.minute < 60 ∧ t.second < 60 ∧ t.nanosecond < 1000000000

instance (t : Time) : Decidable t.inRange := by
  unfold Time.inRange
  infer_instance

instance (env : Env) (remote : String) (x : Exchange) :
    Decidable (x.succeeds env remote) :=
  match h : x.handled env remote with
  | none => isFalse (fun hs => by
      obtain ⟨_, _, out, ho, _⟩ := hs
      rw [h] at ho
      cases ho)
  | some out =>
    if h1 : x.read.err = none ∧ x.writeErr = none ∧ out.1.err = none then
      isTrue ⟨h1.1, h1.2.1, out, h, h1.2.2⟩
    else
      isFalse (fun hs => by
        obtain ⟨a, b, out', ho, c⟩ := hs
        rw [h] at ho
        cases ho
        exact h1 ⟨a, b, c⟩)

instance (env : Env) (remote : String) (x : Exchange) :
    Decidable (x.fails env remote) :=
  if hr : x.read.err = none then
    match h : x.handled env remote with
    | none => isFalse (fun hs => by
        rcases hs with hb | ⟨out, ho, _⟩
        · exact hb hr
        · rw [h] at ho
          cases ho)
    | some out =>
      if h1 : out.1.err = none then
        isFalse (fun hs => by
          rcases hs with hb | ⟨out', ho, c⟩
          · exact hb hr
          · rw [h] at ho
            cases ho
            exact c h1)
      else isTrue (Or.inr ⟨out, h, h1⟩)
  else isTrue (Or.inl hr)

/-! ## Decimal digits -/

theorem digitChar_ne_newline (d : Nat) : Nat.digitChar d ≠ '\n' := by
  by_cases h : d < 16
  · have hall : ∀ k, k < 16 → Nat.digitChar k ≠ '\n' := by decide
    exact hall d h
  · obtain ⟨k, rfl⟩ : ∃ k, d = k + 16 := ⟨d - 16, by omega⟩
    simp [Nat.digitChar]

theorem toDigitsCore_append (b : Nat) (f : Nat) :
    ∀ (n : Nat) (acc : List Char),
      Nat.toDigitsCore b f n acc = Nat.toDigitsCore b f n [] ++ acc := by
  induction f with
  | zero => intro n acc; simp [Nat.toDigitsCore]
  | succ f ih =>
    intro n acc
    simp only [Nat.toDigitsCore]
    by_cases h : n / b = 0
    · simp [h]
    · simp only [h, if_false]
      rw [ih (n / b) (Nat.digitChar (n % b) :: acc), ih (n / b) [Nat.digitChar (n % b)]]
      simp

theorem toDigitsCore_fuel (f : Nat) :
    ∀ (g n : Nat), n < f → n < g →
      Nat.toDigitsCore 10 f n [] = Nat.toDigitsCore 10 g n [] := by
  induction f with
  | zero => intro g n hf; omega
  | succ f ih =>
    intro g n hf hg
    cases g with
    | zero => omega
    | succ g =>
      simp only [Nat.toDigitsCore]
      by_cases h : n / 10 = 0
      · simp [h]
      · simp only [h, if_false]
        rw [toDigitsCore_append 10 f, toDigitsCore_append 10 g]
        have h1 : n / 10 < f := by omega
        have h2 : n / 10 < g := by omega
        rw [ih g (n / 10) h1 h2]

theorem toDigits_small (n : Nat) (h : n < 10) : Nat.toDigits 10 n = [Nat.digitChar n] := by
  have h0 : n / 10 = 0 := by omega
  have h1 : n % 10 = n := by omega
  simp [Nat.toDigits, Nat.toDigitsCore, h0, h1]

theorem toDigits_step (n : Nat) (h : 10 ≤ n) :
    Nat.toDigits 10 n = Nat.toDigits 10 (n / 10) ++ [Nat.digitChar (n % 10)] := by
  have h0 : n / 10 ≠ 0 := by omega
  have hstep : Nat.toDigitsCore 10 (n + 1) n []
      = Nat.toDigitsCore 10 n (n / 10) [Nat.digitChar (n % 10)] := by
    rw [Nat.toDigitsCore]
    simp only [h0, if_false]
  unfold Nat.toDigits
  rw [hstep, toDigitsCore_append 10 n]
  rw [toDigitsCore_fuel n (n / 10 + 1) (n / 10) (by omega) (by omega)]

theorem toDigits_no_newline (n : Nat) : '\n' ∉ Nat.toDigits 10 n := by
  induction n using Nat.strong_induction_on with
  | _ n ih =>
    by_cases h : n < 10
    · rw [toDigits_small n h]
      simp only [List.mem_singleton]
      exact fun e => digitChar_ne_newline n e.symm
    · rw [toDigits_step n (by omega)]
      simp only [List.mem_append, List.mem_singleton, not_or]
      exact ⟨ih (n / 10) (by omega), fun e => digitChar_ne_newline _ e.symm⟩

theorem toDigits_ne_nil (n : Nat) : Nat.toDigits 10 n ≠ [] := by
  by_cases h : n < 10
  · rw [toDigits_small n h]; simp
  · rw [toDigits_step n (by omega)]; simp

/-- Padding the decimal digits of `n` to `width + 1` places gives its fixed-width rendering. -/
theorem toDigits_fixed (width : Nat) :
    ∀ n : Nat, n < 10 ^ (width + 1) →
      List.replicate (width + 1 - (Nat.toDigits 10 n).length) '0' ++ Nat.toDigits 10 n
        = fixedDigits (width + 1) n := by
  induction width with
  | zero =>
    intro n hn
    have hn' : n < 10 := by simpa using hn
    have h0 : n % 10 = n := by omega
    simp [toDigits_small n hn', fixedDigits, h0]
  | succ w ih =>
    intro n hn
    by_cases h : n < 10
    · have h0 : n / 10 = 0 := by omega
      have h1 : n % 10 = n := by omega
      have hz := ih 0 (by positivity)
      rw [toDigits_small 0 (by omega)] at hz
      simp only [List.length_singleton] at hz
      rw [fixedDigits, h0, ← hz, toDigits_small n h, h1]
      simp only [List.length_singleton, List.append_assoc]
      have : w + 1 + 1 - 1 = (w + 1 - 1) + 1 := by omega
      rw [this, List.replicate_succ']
      simp only [List.append_assoc, List.singleton_append, List.append_cancel_left_eq,
        List.cons.injEq, and_true]
      rfl
    · have hlt : n / 10 < 10 ^ (w + 1) := by
        rw [Nat.div_lt_iff_lt_mul (by omega)]
        calc n < 10 ^ (w + 1 + 1) := hn
          _ = 10 ^ (w + 1) * 10 := by ring
      have hs := ih (n / 10) hlt
      rw [fixedDigits, ← hs, toDigits_step n (by omega)]
      simp only [List.length_append, List.length_singleton, List.append_assoc]
      have : w + 1 + 1 - ((Nat.toDigits 10 (n / 10)).length + 1)
          = w + 1 - (Nat.toDigits 10 (n / 10)).length := by omega
      rw [this]

/-! ## Timestamps and numbers contain no line break -/

theorem appendInt_no_newline (x : Int) (width : Nat) : '\n' ∉ appendInt x width := by
  unfold appendInt
  have hd := toDigits_no_newline x.natAbs
  have hr : '\n' ∉ List.replicate (width - (Nat.toDigits 10 x.natAbs).length) '0' := by
    intro hmem
    have := List.eq_of_mem_replicate hmem
    exact absurd this (by decide)
  by_cases hx : x < 0
  · simp only [hx, if_true, List.mem_append, List.mem_singleton, not_or]
    exact ⟨by decide, hr, hd⟩
  · simp only [hx, if_false, List.nil_append, List.mem_append, not_or]
    exact ⟨hr, hd⟩

theorem appendZone_no_newline (offset : Int) : '\n' ∉ appendZone offset := by
  unfold appendZone
  have h1 := appendInt_no_newline (((Int.tdiv offset 60).natAbs / 60 : Nat) : Int) 2
  have h2 := appendInt_no_newline (((Int.tdiv offset 60).natAbs % 60 : Nat) : Int) 2
  by_cases hz : Int.tdiv offset 60 < 0
  · simp only [hz, if_true, List.mem_append, List.mem_singleton, not_or]
    exact ⟨⟨by decide, h1⟩, h2⟩
  · simp only [hz, if_false, List.mem_append, List.mem_singleton, not_or]
    exact ⟨⟨by decide, h1⟩, h2⟩

theorem format_timeFormat (t : Time) :
    (t.Format timeFormat).toList =
      appendInt t.year 4 ++ '-' :: (appendInt t.month 2 ++ '-' :: (appendInt t.day 2 ++ 'T' ::
        (appendInt t.hour 2 ++ ':' :: (appendInt t.minute 2 ++ ':' :: (appendInt t.second 2 ++
          '.' :: ((appendInt t.nanosecond 9).take 2 ++ appendZone t.offset)))))) := by
  simp [Time.Format, timeFormat, formatLayout]

theorem format_date (t : Time) :
    (t.Format "2006/01/02").toList =
      appendInt t.year 4 ++ '/' :: (appendInt t.month 2 ++ '/' :: appendInt t.day 2) := by
  simp [Time.Format, formatLayout]

theorem format_clock (t : Time) :
    (t.Format "150405").toList =
      appendInt t.hour 2 ++ (appendInt t.minute 2 ++ appendInt t.second 2) := by
  simp [Time.Format, formatLayout]

theorem format_no_newline (t : Time) : '\n' ∉ (t.Format timeFormat).toList := by
  rw [format_timeFormat]
  have hn : '\n' ∉ (appendInt t.nanosecond 9).take 2 :=
    fun h => appendInt_no_newline _ _ (List.mem_of_mem_take h)
  simp only [List.mem_append, List.mem_cons, not_or]
  exact ⟨appendInt_no_newline _ _, by decide, appendInt_no_newline _ _, by decide,
    appendInt_no_newline _ _, by decide, appendInt_no_newline _ _, by decide,
    appendInt_no_newline _ _, by decide, appendInt_no_newline _ _, by decide, hn,
    appendZone_no_newline _⟩

theorem format_ne_nil (t : Time) : (t.Format timeFormat).toList ≠ [] := by
  rw [format_timeFormat]
  simp

theorem Itoa_no_newline (i : Int) : '\n' ∉ (Itoa i).toList := by
  cases i with
  | ofNat n =>
    simpa [Itoa, Nat.repr, List.asString] using toDigits_no_newline n
  | negSucc n =>
    have h := toDigits_no_newline (n + 1)
    simp only [Itoa, Nat.repr, List.asString]
    intro hmem
    rw [String.toList, String.data_append] at hmem
    simp only [List.mem_append] at hmem
    rcases hmem with hm | hm
    · exact absurd hm (by decide)
    · exact h hm

theorem Itoa_ne_nil (i : Int) : (Itoa i).toList ≠ [] := by
  cases i with
  | ofNat n =>
    simpa [Itoa, Nat.repr, List.asString] using toDigits_ne_nil n
  | negSucc n =>
    simp [Itoa, String.toList, String.data_append]

/-! ## HandleData -/

/-- What `HandleData` returns and does for a packet that is accepted and decoded. -/
theorem HandleData_accepts (env : Env) (startTime endNow : Time) (buffer : Bytes)
    (protocol addr : String) (p : Packet)
    (hv : env.Validate buffer = Except.ok true) (hd : env.Unmarshal buffer = Except.ok p) :
    HandleData env startTime endNow buffer protocol addr =
      (⟨some ("Interval: " ++ Itoa p.Interval ++ "\nReceived:" ++ startTime.Format timeFormat
            ++ "\nReturned: " ++ endNow.Format timeFormat ++ "\n").toList,
          ⟨startTime, ⟨startTime.Format timeFormat, protocol, addr, false, p⟩⟩, none⟩,
        [Event.send ⟨startTime, ⟨startTime.Format timeFormat, protocol, addr, false, p⟩⟩,
         Event.sleep (wrapInt64 (p.Interval * Second))]) := by
  simp [HandleData, hv, hd]

/-- When `HandleData` returns an error, its response is nil and it has had no effect. -/
theorem HandleData_rejects (env : Env) (startTime endNow : Time) (buffer : Bytes)
    (protocol addr : String)
    (h : (HandleData env startTime endNow buffer protocol addr).1.err ≠ none) :
    (HandleData env startTime endNow buffer protocol addr).1.resp = none ∧
      (HandleData env startTime endNow buffer protocol addr).2 = [] := by
  rcases hv : env.Validate buffer with e | b
  · simp [HandleData, hv]
  · cases b
    · simp [HandleData, hv]
    · rcases hd : env.Unmarshal buffer with e | p
      · simp [HandleData, hv, hd]
      · simp [HandleData, hv, hd] at h

/-- When `HandleData` returns no error, the packet was accepted and decoded. -/
theorem HandleData_succeeds (env : Env) (startTime endNow : Time) (buffer : Bytes)
    (protocol addr : String)
    (h : (HandleData env startTime endNow buffer protocol addr).1.err = none) :
    ∃ p, env.Validate buffer = Except.ok true ∧ env.Unmarshal buffer = Except.ok p := by
  rcases hv : env.Validate buffer with e | b
  · simp [HandleData, hv] at h
  · cases b
    · simp [HandleData, hv] at h
    · rcases hd : env.Unmarshal buffer with e | p
      · simp [HandleData, hv, hd] at h
      · exact ⟨p, rfl, rfl⟩

/-- C1: a packet the validator reports as invalid makes `HandleData` return the error
"Wrong format in packet" and a nil response, and `HandleData` does nothing else: no record
is sent on `saveChan` and no sleep is requested. -/
theorem HandleData_invalid_packet (env : Env) (startTime endNow : Time) (buffer : Bytes)
    (protocol addr : String) (h : env.Validate buffer = Except.ok false) :
    (HandleData env startTime endNow buffer protocol addr).1.err
        = some ⟨"Wrong format in packet"⟩ ∧
      (HandleData env startTime endNow buffer protocol addr).1.resp = none ∧
      sends (HandleData env startTime endNow buffer protocol addr).2 = [] ∧
      sleeps (HandleData env startTime endNow buffer protocol addr).2 = [] ∧
      (HandleData env startTime endNow buffer protocol addr).2 = [] := by
  simp [HandleData, h, sends, sleeps]

/-- The packet with only the field `op` is reported invalid, and `HandleData` rejects it
without any effect. -/
theorem HandleData_invalid_packet_witness :
    goEnv.Validate packetShort = Except.ok false ∧
      (HandleData goEnv timeA timeB packetShort "UDP" "10.0.0.1:4000").1.err
        = some ⟨"Wrong format in packet"⟩ ∧
      (HandleData goEnv timeA timeB packetShort "UDP" "10.0.0.1:4000").1.resp = none ∧
      sends (HandleData goEnv timeA timeB packetShort "UDP" "10.0.0.1:4000").2 = [] ∧
      sleeps (HandleData goEnv timeA timeB packetShort "UDP" "10.0.0.1:4000").2 = [] ∧
      (HandleData goEnv timeA timeB packetShort "UDP" "10.0.0.1:4000").2 = [] :=
  ⟨rfl, HandleData_invalid_packet goEnv timeA timeB packetShort "UDP" "10.0.0.1:4000" rfl⟩

/-- C2, as stated, fails: the packet `packetHuge` has all six fields with the types the
schema asks for, the validator accepts it, and `HandleData` returns an error, because its
interval does not fit the `int` field it is decoded into. -/
theorem HandleData_schema_valid_rejected :
    parseJSON packetHuge
        = some [("op", JValue.str "A"), ("ip", JValue.str "10.0.0.1"), ("cell_id", JValue.int 1),
            ("ue_mode", JValue.int 0), ("iccid", JValue.str "123"),
            ("interval", JValue.int 9223372036854775808)] ∧
      goEnv.Validate packetHuge = Except.ok true ∧
      (HandleData goEnv timeA timeB packetHuge "UDP" "10.0.0.1:4000").1.err ≠ none ∧
      (HandleData goEnv timeA timeB packetHuge "UDP" "10.0.0.1:4000").1.resp = none := by
  refine ⟨by decide, rfl, ?_, ?_⟩
  · decide
  · decide

/-- C2, amended: for a packet that the validator accepts, `HandleData` does what the
decoder's result says.  If the decoder decodes it, `HandleData` returns no error and the
acknowledgment is the text `Interval: `, the decimal rendering of the decoded interval, a
line break, and the two timestamp lines.  If the decoder rejects it with an error,
`HandleData` returns that same error with a nil response, and has sent no record and
requested no sleep. -/
theorem HandleData_valid_packet (env : Env) (startTime endNow : Time) (buffer : Bytes)
    (protocol addr : String) (hv : env.Validate buffer = Except.ok true) :
    (∀ p : Packet, env.Unmarshal buffer = Except.ok p →
      (HandleData env startTime endNow buffer protocol addr).1.err = none ∧
      ∃ rest, '\n' ∉ (Itoa p.Interval).toList ∧
        (HandleData env startTime endNow buffer protocol addr).1.resp
          = some ("Interval: ".toList ++ (Itoa p.Interval).toList ++ '\n' :: rest)) ∧
    (∀ e : GoError, env.Unmarshal buffer = Except.error e →
      (HandleData env startTime endNow buffer protocol addr).1.err = some e ∧
      (HandleData env startTime endNow buffer protocol addr).1.resp = none ∧
      sends (HandleData env startTime endNow buffer protocol addr).2 = [] ∧
      sleeps (HandleData env startTime endNow buffer protocol addr).2 = [] ∧
      (HandleData env startTime endNow buffer protocol addr).2 = []) := by
  constructor
  · intro p hd
    rw [HandleData_accepts env startTime endNow buffer protocol addr p hv hd]
    refine ⟨rfl, ("Received:" ++ startTime.Format timeFormat ++ "\nReturned: "
      ++ endNow.Format timeFormat ++ "\n").toList, Itoa_no_newline p.Interval, ?_⟩
    simp [String.toList, String.data_append]
  · intro e hd
    simp [HandleData, hv, hd, sends, sleeps]

/-- The packet with interval 7 is accepted and decoded, and its acknowledgment begins with
`Interval: 7`; the packet with interval `2^63` is accepted, the decoder rejects it, and
`HandleData` returns the decoder's error without any effect. -/
theorem HandleData_valid_packet_witness :
    goEnv.Validate packetB = Except.ok true ∧
      goEnv.Unmarshal packetB = Except.ok ⟨"B", "10.0.0.2", 2, 1, "456", 7⟩ ∧
      ((HandleData goEnv timeA timeB packetB "UDP" "10.0.0.1:4000").1.err = none ∧
        ∃ rest, '\n' ∉ (Itoa 7).toList ∧
          (HandleData goEnv timeA timeB packetB "UDP" "10.0.0.1:4000").1.resp
            = some ("Interval: ".toList ++ (Itoa 7).toList ++ '\n' :: rest)) ∧
      goEnv.Validate packetHuge = Except.ok true ∧
      goEnv.Unmarshal packetHuge = Except.error
        ⟨"json: cannot unmarshal number into Go struct field Packet.interval of type int"⟩ ∧
      (HandleData goEnv timeA timeB packetHuge "UDP" "10.0.0.1:4000").1.err = some
        ⟨"json: cannot unmarshal number into Go struct field Packet.interval of type int"⟩ ∧
      (HandleData goEnv timeA timeB packetHuge "UDP" "10.0.0.1:4000").1.resp = none ∧
      sends (HandleData goEnv timeA timeB packetHuge "UDP" "10.0.0.1:4000").2 = [] ∧
      sleeps (HandleData goEnv timeA timeB packetHuge "UDP" "10.0.0.1:4000").2 = [] ∧
      (HandleData goEnv timeA timeB packetHuge "UDP" "10.0.0.1:4000").2 = [] :=
  ⟨rfl, rfl,
    (HandleData_valid_packet goEnv timeA timeB packetB "UDP" "10.0.0.1:4000" rfl).1
      ⟨"B", "10.0.0.2", 2, 1, "456", 7⟩ rfl,
    rfl, rfl,
    (HandleData_valid_packet goEnv timeA timeB packetHuge "UDP" "10.0.0.1:4000" rfl).2
      ⟨"json: cannot unmarshal number into Go struct field Packet.interval of type int"⟩ rfl⟩

/-- A value in the `int64` range is not changed by wrapping. -/
theorem wrapInt64_of_fits (x : Int) (hlo : -9223372036854775808 ≤ x)
    (hhi : x ≤ 9223372036854775807) : wrapInt64 x = x := by
  unfold wrapInt64
  norm_num
  omega

/-- C3: when `HandleData` succeeds, the packet decodes to some `p`, and the acknowledgment
is three lines, each ended by a line break and holding no other line break: `Interval: `
with the decimal interval, `Received:` with the formatted receipt time, `Returned: ` with
the formatted completion time.  Both timestamps are non-empty, and the receipt timestamp
is the string stored in the record's `Received` field. -/
theorem HandleData_acknowledgment (env : Env) (startTime endNow : Time) (buffer : Bytes)
    (protocol addr : String)
    (h : (HandleData env startTime endNow buffer protocol addr).1.err = none) :
    ∃ p, env.Unmarshal buffer = Except.ok p ∧
      (HandleData env startTime endNow buffer protocol addr).1.resp
        = some (("Interval: ".toList ++ (Itoa p.Interval).toList) ++ '\n' ::
            (("Received:".toList ++ (startTime.Format timeFormat).toList) ++ '\n' ::
              (("Returned: ".toList ++ (endNow.Format timeFormat).toList) ++ ['\n']))) ∧
      '\n' ∉ "Interval: ".toList ++ (Itoa p.Interval).toList ∧
      '\n' ∉ "Received:".toList ++ (startTime.Format timeFormat).toList ∧
      '\n' ∉ "Returned: ".toList ++ (endNow.Format timeFormat).toList ∧
      (Itoa p.Interval).toList ≠ [] ∧
      (startTime.Format timeFormat).toList ≠ [] ∧
      (endNow.Format timeFormat).toList ≠ [] ∧
      (HandleData env startTime endNow buffer protocol addr).1.saveData.Data.Received
        = startTime.Format timeFormat ∧
      (HandleData env startTime endNow buffer protocol addr).1.saveData.Timestamp
        = startTime := by
  obtain ⟨p, hv, hd⟩ := HandleData_succeeds env startTime endNow buffer protocol addr h
  refine ⟨p, hd, ?_⟩
  rw [HandleData_accepts env startTime endNow buffer protocol addr p hv hd]
  have hi := Itoa_no_newline p.Interval
  have h0 := format_no_newline startTime
  have h1 := format_no_newline endNow
  refine ⟨?_, ?_, ?_, ?_, Itoa_ne_nil _, format_ne_nil _, format_ne_nil _, rfl, rfl⟩
  · simp [String.toList, String.data_append]
  · simp only [List.mem_append, not_or]
    exact ⟨by decide, hi⟩
  · simp only [List.mem_append, not_or]
    exact ⟨by decide, h0⟩
  · simp only [List.mem_append, not_or]
    exact ⟨by decide, h1⟩

/-- The packet of the specification's scenario, with interval 0, is handled without error
and acknowledged in three lines. -/
theorem HandleData_acknowledgment_witness :
    (HandleData goEnv timeA timeB packetA "UDP" "10.0.0.1:4000").1.err = none ∧
    ∃ p, goEnv.Unmarshal packetA = Except.ok p ∧
      (HandleData goEnv timeA timeB packetA "UDP" "10.0.0.1:4000").1.resp
        = some (("Interval: ".toList ++ (Itoa p.Interval).toList) ++ '\n' ::
            (("Received:".toList ++ (timeA.Format timeFormat).toList) ++ '\n' ::
              (("Returned: ".toList ++ (timeB.Format timeFormat).toList) ++ ['\n']))) ∧
      '\n' ∉ "Interval: ".toList ++ (Itoa p.Interval).toList ∧
      '\n' ∉ "Received:".toList ++ (timeA.Format timeFormat).toList ∧
      '\n' ∉ "Returned: ".toList ++ (timeB.Format timeFormat).toList ∧
      (Itoa p.Interval).toList ≠ [] ∧
      (timeA.Format timeFormat).toList ≠ [] ∧
      (timeB.Format timeFormat).toList ≠ [] ∧
      (HandleData goEnv timeA timeB packetA "UDP" "10.0.0.1:4000").1.saveData.Data.Received
        = timeA.Format timeFormat ∧
      (HandleData goEnv timeA timeB packetA "UDP" "10.0.0.1:4000").1.saveData.Timestamp
        = timeA :=
  ⟨by decide,
    HandleData_acknowledgment goEnv timeA timeB packetA "UDP" "10.0.0.1:4000" (by decide)⟩

/-- C8, as stated, fails: the packet `packetLong` is accepted and decodes to the interval
9223372037, and the duration `HandleData` passes to `time.Sleep` is -9223372036709551616
nanoseconds, which is not 9223372037 * 1000000000. -/
theorem HandleData_sleep_overflow :
    goEnv.Validate packetLong = Except.ok true ∧
      goEnv.Unmarshal packetLong = Except.ok ⟨"A", "10.0.0.1", 1, 0, "123", 9223372037⟩ ∧
      sleeps (HandleData goEnv timeA timeB packetLong "UDP" "10.0.0.1:4000").2
        = [-9223372036709551616] ∧
      sleeps (HandleData goEnv timeA timeB packetLong "UDP" "10.0.0.1:4000").2
        ≠ [9223372037 * 1000000000] := by
  refine ⟨rfl, rfl, ?_, ?_⟩
  · decide
  · decide

/-- C8, amended: for a packet that is accepted and decoded, `HandleData` requests one
sleep, of the 64-bit product of the interval and `time.Second`; when the interval lies
between -9223372036 and 9223372036 that is exactly interval * 1000000000 nanoseconds, and
for the interval 0 it is 0. -/
theorem HandleData_sleep (env : Env) (startTime endNow : Time) (buffer : Bytes)
    (protocol addr : String) (p : Packet)
    (hv : env.Validate buffer = Except.ok true) (hd : env.Unmarshal buffer = Except.ok p) :
    sleeps (HandleData env startTime endNow buffer protocol addr).2
        = [wrapInt64 (p.Interval * 1000000000)] ∧
      (-9223372036 ≤ p.Interval → p.Interval ≤ 9223372036 →
        sleeps (HandleData env startTime endNow buffer protocol addr).2
          = [p.Interval * 1000000000]) ∧
      (p.Interval = 0 →
        sleeps (HandleData env startTime endNow buffer protocol addr).2 = [0]) := by
  rw [HandleData_accepts env startTime endNow buffer protocol addr p hv hd]
  refine ⟨rfl, ?_, ?_⟩
  · intro hlo hhi
    simp only [sleeps, Second]
    rw [wrapInt64_of_fits _ (by omega) (by omega)]
  · intro h0
    simp only [sleeps, Second, h0]
    rfl

/-- The packet with interval 7 requests a sleep of 7000000000 nanoseconds, and the packet with
interval 0 a sleep of 0. -/
theorem HandleData_sleep_witness :
    goEnv.Validate packetB = Except.ok true ∧
      goEnv.Unmarshal packetB = Except.ok ⟨"B", "10.0.0.2", 2, 1, "456", 7⟩ ∧
      (-9223372036 : Int) ≤ 7 ∧ (7 : Int) ≤ 9223372036 ∧
      sleeps (HandleData goEnv timeA timeB packetB "TCP" "10.0.0.1:4000").2
        = [7 * 1000000000] ∧
      goEnv.Unmarshal packetA = Except.ok ⟨"A", "10.0.0.1", 1, 0, "123", 0⟩ ∧
      sleeps (HandleData goEnv timeA timeB packetA "TCP" "10.0.0.1:4000").2 = [0] :=
  ⟨rfl, rfl, by decide, by decide,
    (HandleData_sleep goEnv timeA timeB packetB "TCP" "10.0.0.1:4000"
      ⟨"B", "10.0.0.2", 2, 1, "456", 7⟩ rfl rfl).2.1 (by decide) (by decide),
    rfl,
    (HandleData_sleep goEnv timeA timeB packetA "TCP" "10.0.0.1:4000"
      ⟨"A", "10.0.0.1", 1, 0, "123", 0⟩ rfl rfl).2.2 rfl⟩

/-! ## The handlers -/

theorem sends_append (a b : List Event) : sends (a ++ b) = sends a ++ sends b := by
  induction a with
  | nil => rfl
  | cons e a ih => cases e <;> simp [sends, ih]

theorem writes_append (a b : List Event) : writes (a ++ b) = writes a ++ writes b := by
  induction a with
  | nil => rfl
  | cons e a ih => cases e <;> simp [writes, ih]

/-- What `HandleData` does when it succeeds: it sends its record, with the timeout flag
unset, and sleeps, and the response starts with `Interval: `. -/
theorem HandleData_success_shape (env : Env) (startTime endNow : Time) (buffer : Bytes)
    (protocol addr : String)
    (h : (HandleData env startTime endNow buffer protocol addr).1.err = none) :
    ∃ d tail, (HandleData env startTime endNow buffer protocol addr).2
        = [Event.send (HandleData env startTime endNow buffer protocol addr).1.saveData,
           Event.sleep d] ∧
      (HandleData env startTime endNow buffer protocol addr).1.saveData.Data.Timeout = false ∧
      (HandleData env startTime endNow buffer protocol addr).1.resp
        = some ('I' :: tail) := by
  obtain ⟨p, hv, hd⟩ := HandleData_succeeds env startTime endNow buffer protocol addr h
  rw [HandleData_accepts env startTime endNow buffer protocol addr p hv hd]
  exact ⟨_, ("nterval: " ++ Itoa p.Interval ++ "\nReceived:" ++ startTime.Format timeFormat
    ++ "\nReturned: " ++ endNow.Format timeFormat ++ "\n").toList, rfl, rfl, by
      simp [String.toList, String.data_append]⟩

/-- C4: after a successful `HandleData`, whose record has the timeout flag unset, a failed
write of the acknowledgment makes `HandleUDP` and `HandleTCP` send exactly one more record,
`markTimeout` of the first, which has the flag set and every other field unchanged (and
`HandleTCP` then returns); after a successful write `HandleUDP` sends nothing more, and
`HandleTCP` sends nothing more for that turn. -/
theorem write_failure_resubmits (env : Env) (startTime endNow : Time) (addr : String)
    (buffer : Bytes) (remote : String) (x : Exchange) (rest : List Exchange)
    (out : HandleDataResult × List Event) (e : GoError) :
    (∀ r : SaveRoutineStruct, (markTimeout r).Data.Timeout = true ∧
        (markTimeout r).Timestamp = r.Timestamp ∧
        (markTimeout r).Data.Received = r.Data.Received ∧
        (markTimeout r).Data.Protocol = r.Data.Protocol ∧
        (markTimeout r).Data.IP = r.Data.IP ∧ (markTimeout r).Data.Data = r.Data.Data) ∧
    ((HandleData env startTime endNow buffer "UDP" addr).1.err = none →
      (HandleData env startTime endNow buffer "UDP" addr).1.saveData.Data.Timeout = false ∧
      sends (HandleData env startTime endNow buffer "UDP" addr).2
        = [(HandleData env startTime endNow buffer "UDP" addr).1.saveData] ∧
      sends (HandleUDP env startTime endNow (some e) addr buffer)
        = [(HandleData env startTime endNow buffer "UDP" addr).1.saveData,
           markTimeout (HandleData env startTime endNow buffer "UDP" addr).1.saveData] ∧
      sends (HandleUDP env startTime endNow none addr buffer)
        = [(HandleData env startTime endNow buffer "UDP" addr).1.saveData]) ∧
    (x.read.err = none → x.handled env remote = some out → out.1.err = none →
      out.1.saveData.Data.Timeout = false ∧
      sends out.2 = [out.1.saveData] ∧
      (x.writeErr = some e →
        sends (HandleTCP env remote (x :: rest)).1 = [out.1.saveData, markTimeout out.1.saveData] ∧
        (HandleTCP env remote (x :: rest)).2 = Exit.returned) ∧
      (x.writeErr = none →
        sends (HandleTCP env remote (x :: rest)).1
          = out.1.saveData :: sends (HandleTCP env remote rest).1)) := by
  refine ⟨fun r => ⟨rfl, rfl, rfl, rfl, rfl, rfl⟩, ?_, ?_⟩
  · intro h
    obtain ⟨d, tail, hev, hto, hresp⟩ :=
      HandleData_success_shape env startTime endNow buffer "UDP" addr h
    refine ⟨hto, ?_, ?_, ?_⟩
    · rw [hev]; rfl
    · simp only [HandleUDP, h]
      rw [hev]
      simp [sends]
    · simp only [HandleUDP, h]
      rw [hev]
      simp [sends]
  · intro hr hh ho
    obtain ⟨packet, hp, rfl⟩ : ∃ packet, x.packet = some packet ∧
        HandleData env x.startTime x.endNow packet "TCP" remote = out := by
      simpa [Exchange.handled] using hh
    obtain ⟨d, tail, hev, hto, hresp⟩ :=
      HandleData_success_shape env x.startTime x.endNow packet "TCP" remote ho
    have hp' : sliceTo x.read.buffer (x.read.n - 1) = some packet := hp
    refine ⟨hto, ?_, ?_, ?_⟩
    · rw [hev]; rfl
    · intro hw
      simp only [HandleTCP, hr, hp', ho, hw]
      rw [hev]
      simp [sends]
    · intro hw
      simp only [HandleTCP, hr, hp', ho, hw]
      rw [hev]
      simp [sends, sends_append]

/-- A failed write after `packetA`: both handlers send the record again with the timeout
flag set; after a successful write they do not. -/
theorem write_failure_resubmits_witness :
    (HandleData goEnv timeA timeB packetA "UDP" peer).1.err = none ∧
    sends (HandleUDP goEnv timeA timeB (some ⟨"write: broken pipe"⟩) peer packetA)
      = [recordA "UDP", markTimeout (recordA "UDP")] ∧
    sends (HandleUDP goEnv timeA timeB none peer packetA) = [recordA "UDP"] ∧
    exchangeLost.writeErr = some ⟨"write: broken pipe"⟩ ∧
    sends (HandleTCP goEnv peer [exchangeLost, exchangeB]).1
      = [recordA "TCP", markTimeout (recordA "TCP")] ∧
    (HandleTCP goEnv peer [exchangeLost, exchangeB]).2 = Exit.returned ∧
    exchangeA.writeErr = none ∧
    sends (HandleTCP goEnv peer [exchangeA, exchangeLost]).1
      = recordA "TCP" :: sends (HandleTCP goEnv peer [exchangeLost]).1 :=
  ⟨by decide,
    ((write_failure_resubmits goEnv timeA timeB peer packetA peer exchangeLost [exchangeB]
      (HandleData goEnv timeA timeB packetA "TCP" peer) ⟨"write: broken pipe"⟩).2.1
        (by decide)).2.2.1,
    ((write_failure_resubmits goEnv timeA timeB peer packetA peer exchangeLost [exchangeB]
      (HandleData goEnv timeA timeB packetA "TCP" peer) ⟨"write: broken pipe"⟩).2.1
        (by decide)).2.2.2,
    rfl,
    (((write_failure_resubmits goEnv timeA timeB peer packetA peer exchangeLost [exchangeB]
      (HandleData goEnv timeA timeB packetA "TCP" peer) ⟨"write: broken pipe"⟩).2.2
        rfl rfl (by decide)).2.2.1 rfl).1,
    (((write_failure_resubmits goEnv timeA timeB peer packetA peer exchangeLost [exchangeB]
      (HandleData goEnv timeA timeB packetA "TCP" peer) ⟨"write: broken pipe"⟩).2.2
        rfl rfl (by decide)).2.2.1 rfl).2,
    rfl,
    ((write_failure_resubmits goEnv timeA timeB peer packetA peer exchangeA [exchangeLost]
      (HandleData goEnv timeA timeB packetA "TCP" peer) ⟨"write: broken pipe"⟩).2.2
        rfl rfl (by decide)).2.2.2 rfl⟩

/-- A turn that succeeds: what `HandleTCP` does in it, and that it goes on to the next. -/
theorem HandleTCP_turn (env : Env) (remote : String) (x : Exchange)
    (h : x.succeeds env remote) :
    ∃ r d tail,
      x.ack env remote = 'I' :: tail ∧
      ∀ rest, HandleTCP env remote (x :: rest) =
        ([Event.read, Event.send r, Event.sleep d,
          Event.log "TCP Packet received from %s\n" [remote], Event.write (x.ack env remote),
          Event.log "Packet sent to %s\n" [remote]] ++ (HandleTCP env remote rest).1,
         (HandleTCP env remote rest).2) := by
  obtain ⟨hr, hw, out, hh, ho⟩ := h
  obtain ⟨packet, hp, rfl⟩ : ∃ packet, x.packet = some packet ∧
      HandleData env x.startTime x.endNow packet "TCP" remote = out := by
    simpa [Exchange.handled] using hh
  obtain ⟨d, tail, hev, hto, hresp⟩ :=
    HandleData_success_shape env x.startTime x.endNow packet "TCP" remote ho
  have hp' : sliceTo x.read.buffer (x.read.n - 1) = some packet := hp
  have hack : x.ack env remote = 'I' :: tail := by
    simp [Exchange.ack, hh, hresp]
  refine ⟨(HandleData env x.startTime x.endNow packet "TCP" remote).1.saveData, d, tail,
    hack, ?_⟩
  intro rest
  simp only [HandleTCP, hr, hp', ho, hw]
  rw [hev, hack, hresp]
  simp

/-- A run of turns that all succeed: the handler writes one acknowledgment per turn, in
order, never closes and never writes the error notice, and then carries on with what follows. -/
theorem HandleTCP_good_turns (env : Env) (remote : String) (xs : List Exchange)
    (h : ∀ x ∈ xs, x.succeeds env remote) :
    ∃ pre, (∀ rest, HandleTCP env remote (xs ++ rest)
        = (pre ++ (HandleTCP env remote rest).1, (HandleTCP env remote rest).2)) ∧
      writes pre = xs.map (Exchange.ack env remote) ∧
      Event.close ∉ pre ∧ Event.write dcBuffer ∉ pre ∧ pre.count Event.read = xs.length := by
  induction xs with
  | nil => exact ⟨[], fun rest => rfl, rfl, by simp, by simp, rfl⟩
  | cons x xs ih =>
    obtain ⟨pre, hpre, hwr, hcl, hdc, hrd⟩ := ih (fun y hy => h y (List.mem_cons_of_mem _ hy))
    have hx := h x (List.mem_cons_self _ _)
    obtain ⟨r, d, tail, hack, hrun⟩ := HandleTCP_turn env remote x hx
    refine ⟨[Event.read, Event.send r, Event.sleep d,
          Event.log "TCP Packet received from %s\n" [remote], Event.write (x.ack env remote),
          Event.log "Packet sent to %s\n" [remote]] ++ pre, ?_, ?_, ?_, ?_, ?_⟩
    · intro rest
      rw [List.cons_append, hrun (xs ++ rest), hpre rest]
      simp
    · simp [writes, hwr]
    · simp [hcl]
    · have hne : x.ack env remote ≠ dcBuffer := by
        rw [hack]; intro hc
        have := congrArg List.head? hc
        simp [dcBuffer] at this
      simp [hdc, Ne.symm hne]
    · simp [List.count_cons, hrd]


/-- The turn `exchangeA` succeeds. -/
theorem exchangeA_succeeds : exchangeA.succeeds goEnv peer := by
  decide

/-- C6: at the first turn in which the read fails or `HandleData` returns an error (all
earlier turns having succeeded, their events being `pre`), `HandleTCP` reads once, writes
`dcBuffer` and nothing else, sends nothing on `saveChan`, closes the connection and
returns.  The turns that would follow play no part: the run is the same whatever they are. -/
theorem HandleTCP_first_failure (env : Env) (remote : String) (xs : List Exchange)
    (x : Exchange) (rest : List Exchange)
    (hgood : ∀ y ∈ xs, y.succeeds env remote) (hbad : x.fails env remote) :
    ∃ pre logs, HandleTCP env remote xs = (pre ++ [Event.read], Exit.waiting) ∧
      (∀ e ∈ logs, ∃ format args, e = Event.log format args) ∧
      HandleTCP env remote (xs ++ x :: rest)
        = (pre ++ (Event.read :: logs ++ [Event.write dcBuffer, Event.close]), Exit.returned) ∧
      writes (Event.read :: logs ++ [Event.write dcBuffer, Event.close]) = [dcBuffer] ∧
      sends (Event.read :: logs ++ [Event.write dcBuffer, Event.close]) = [] ∧
      HandleTCP env remote (xs ++ x :: rest) = HandleTCP env remote (xs ++ [x]) := by
  obtain ⟨pre, hpre, -, -, -, -⟩ := HandleTCP_good_turns env remote xs hgood
  have hlogs : ∀ logs : List Event, (∀ e ∈ logs, ∃ format args, e = Event.log format args) →
      writes (Event.read :: logs ++ [Event.write dcBuffer, Event.close]) = [dcBuffer] ∧
      sends (Event.read :: logs ++ [Event.write dcBuffer, Event.close]) = [] := by
    intro logs hl
    induction logs with
    | nil => exact ⟨rfl, rfl⟩
    | cons l logs ih =>
      obtain ⟨f, a, rfl⟩ := hl _ (List.mem_cons_self _ _)
      have := ih (fun e he => hl e (List.mem_cons_of_mem _ he))
      simpa [writes, sends] using this
  have hturn : ∃ logs : List Event, (∀ e ∈ logs, ∃ format args, e = Event.log format args) ∧
      ∀ rest, HandleTCP env remote (x :: rest)
        = (Event.read :: logs ++ [Event.write dcBuffer, Event.close], Exit.returned) := by
    rcases hr : x.read.err with _ | e'
    · rcases hbad with hb | ⟨out, hh, ho⟩
      · exact absurd hr hb
      · obtain ⟨packet, hp, rfl⟩ : ∃ packet, x.packet = some packet ∧
            HandleData env x.startTime x.endNow packet "TCP" remote = out := by
          simpa [Exchange.handled] using hh
        have hp' : sliceTo x.read.buffer (x.read.n - 1) = some packet := hp
        obtain ⟨e, he⟩ := Option.ne_none_iff_exists'.mp ho
        have hnone := (HandleData_rejects env x.startTime x.endNow packet "TCP" remote ho).2
        refine ⟨[Event.log "Invalid TCP Packet received from %s. Connection terminated.\n"
          [remote]], by simp, fun rest => ?_⟩
        simp [HandleTCP, hr, hp', he, hnone]
    · exact ⟨[], by simp, fun rest => by simp [HandleTCP, hr]⟩
  obtain ⟨logs, hl, hrun⟩ := hturn
  refine ⟨pre, logs, by simpa using hpre [], hl, ?_, (hlogs logs hl).1, (hlogs logs hl).2, ?_⟩
  · rw [hpre (x :: rest), hrun rest]
  · rw [hpre (x :: rest), hpre [x], hrun rest, hrun []]


/-- The turn `exchangeShort` fails: `HandleData` rejects its packet. -/
theorem exchangeShort_fails : exchangeShort.fails goEnv peer := by
  decide

/-- A valid packet, then an invalid one, then a valid one: the handler stops at the second. -/
theorem HandleTCP_first_failure_witness :
    (∀ y ∈ [exchangeA], y.succeeds goEnv peer) ∧ exchangeShort.fails goEnv peer ∧
    ∃ pre logs, HandleTCP goEnv peer [exchangeA] = (pre ++ [Event.read], Exit.waiting) ∧
      (∀ e ∈ logs, ∃ format args, e = Event.log format args) ∧
      HandleTCP goEnv peer ([exchangeA] ++ exchangeShort :: [exchangeB])
        = (pre ++ (Event.read :: logs ++ [Event.write dcBuffer, Event.close]), Exit.returned) ∧
      writes (Event.read :: logs ++ [Event.write dcBuffer, Event.close]) = [dcBuffer] ∧
      sends (Event.read :: logs ++ [Event.write dcBuffer, Event.close]) = [] ∧
      HandleTCP goEnv peer ([exchangeA] ++ exchangeShort :: [exchangeB])
        = HandleTCP goEnv peer ([exchangeA] ++ [exchangeShort]) :=
  have hgood : ∀ y ∈ [exchangeA], y.succeeds goEnv peer := by
    intro y hy
    simp only [List.mem_singleton] at hy
    subst hy
    exact exchangeA_succeeds
  ⟨hgood, exchangeShort_fails,
    HandleTCP_first_failure goEnv peer [exchangeA] exchangeShort [exchangeB] hgood
      exchangeShort_fails⟩

/-! ## The save loop -/

theorem uploads_append (a b : List Event) : uploads (a ++ b) = uploads a ++ uploads b := by
  induction a with
  | nil => rfl
  | cons e a ih => cases e <;> simp [uploads, ih]

theorem appendInt_natCast (n width : Nat) :
    appendInt (n : Int) width
      = List.replicate (width - (Nat.toDigits 10 n).length) '0' ++ Nat.toDigits 10 n := by
  have h : ¬ ((n : Int) < 0) := by omega
  simp [appendInt, h]

theorem appendInt_fixed (n width : Nat) (h : n < 10 ^ (width + 1)) :
    appendInt (n : Int) (width + 1) = fixedDigits (width + 1) n := by
  rw [appendInt_natCast, toDigits_fixed width n h]

/-- The loop body launches exactly one upload, whatever `json.Marshal` returns. -/
theorem saveOne_uploads (env : Env) (awsBucket : String) (i : SaveRoutineStruct)
    (newUUID : String) :
    uploads (saveOne env awsBucket i newUUID)
      = [(i.Timestamp.Format "2006/01/02" ++ "/" ++ i.Data.IP ++ "-"
            ++ i.Timestamp.Format "150405" ++ "-" ++ newUUID ++ ".json",
          String.mk (env.Marshal i.Data).1)] := by
  unfold saveOne
  rcases hm : env.Marshal i.Data with ⟨buffer, err⟩
  cases err <;> simp [uploads]

/-- C7: for every record `i` and identifier `newUUID`, the loop launches one upload for the
record.  Its key is the date of `i.Timestamp` as year `/` month `/` day, then `/`, the
sender address, `-`, hour, minute and second, `-`, the identifier and `.json`; for a
timestamp with its fields in range the year has exactly four digits and the other five
numbers exactly two.  Its body is the byte sequence `json.Marshal(i.Data)` returned. -/
theorem SaveRoutine_object_key (env : Env) (awsBucket : String) (i : SaveRoutineStruct)
    (newUUID : String) (rest : List (SaveRoutineStruct × String)) :
    (∃ key, uploads (SaveRoutine env awsBucket ((i, newUUID) :: rest))
        = (key, String.mk (env.Marshal i.Data).1) :: uploads (SaveRoutine env awsBucket rest) ∧
      key.toList = appendInt i.Timestamp.year 4 ++ '/' :: (appendInt i.Timestamp.month 2 ++
        '/' :: (appendInt i.Timestamp.day 2 ++ '/' :: (i.Data.IP.toList ++ '-' ::
          (appendInt i.Timestamp.hour 2 ++ (appendInt i.Timestamp.minute 2 ++
            (appendInt i.Timestamp.second 2 ++ '-' :: (newUUID.toList ++ ".json".toList)))))))) ∧
    (i.Timestamp.inRange →
      appendInt i.Timestamp.year 4 = fixedDigits 4 i.Timestamp.year.toNat ∧
      appendInt i.Timestamp.month 2 = fixedDigits 2 i.Timestamp.month ∧
      appendInt i.Timestamp.day 2 = fixedDigits 2 i.Timestamp.day ∧
      appendInt i.Timestamp.hour 2 = fixedDigits 2 i.Timestamp.hour ∧
      appendInt i.Timestamp.minute 2 = fixedDigits 2 i.Timestamp.minute ∧
      appendInt i.Timestamp.second 2 = fixedDigits 2 i.Timestamp.second) := by
  constructor
  · refine ⟨i.Timestamp.Format "2006/01/02" ++ "/" ++ i.Data.IP ++ "-"
      ++ i.Timestamp.Format "150405" ++ "-" ++ newUUID ++ ".json", ?_, ?_⟩
    · rw [SaveRoutine, uploads_append, saveOne_uploads]
      rfl
    · simp only [String.toList, String.data_append]
      have hd := format_date i.Timestamp
      have hc := format_clock i.Timestamp
      simp only [String.toList] at hd hc
      rw [hd, hc]
      simp
  · rintro ⟨hy0, hy1, -, hm, -, hd, hh, hmi, hs, -⟩
    have hyear : i.Timestamp.year = ((i.Timestamp.year.toNat : Nat) : Int) := by omega
    refine ⟨?_, ?_, ?_, ?_, ?_, ?_⟩
    · rw [hyear]
      simp only [Int.toNat_ofNat]
      exact appendInt_fixed _ 3 (by norm_num; omega)
    · exact appendInt_fixed _ 1 (by norm_num; omega)
    · exact appendInt_fixed _ 1 (by norm_num; omega)
    · exact appendInt_fixed _ 1 (by norm_num; omega)
    · exact appendInt_fixed _ 1 (by norm_num; omega)
    · exact appendInt_fixed _ 1 (by norm_num; omega)

/-- The record of `packetA`, received on 7 March 2024 at 09:05:03, is stored under
`2024/03/07/10.0.0.1:4000-090503-<uuid>.json`. -/
theorem SaveRoutine_object_key_witness :
    (recordA "UDP").Timestamp.inRange ∧
    uploads (SaveRoutine goEnv "bucket" [(recordA "UDP", "6ba7b810-9dad-11d1-80b4-00c04fd430c8")])
      = [("2024/03/07/10.0.0.1:4000-090503-6ba7b810-9dad-11d1-80b4-00c04fd430c8.json",
          String.mk (goEnv.Marshal (recordA "UDP").Data).1)] ∧
    appendInt (recordA "UDP").Timestamp.year 4 = fixedDigits 4 2024 ∧
    appendInt (recordA "UDP").Timestamp.second 2 = fixedDigits 2 3 :=
  have hr : (recordA "UDP").Timestamp.inRange := by decide
  have hw := SaveRoutine_object_key goEnv "bucket" (recordA "UDP")
    "6ba7b810-9dad-11d1-80b4-00c04fd430c8" []
  ⟨hr, by decide, (hw.2 hr).1, (hw.2 hr).2.2.2.2.2⟩

/-! ## The framing byte -/

/-- A read of at least one byte: the slice expression succeeds and the packet is what was
read without its last byte. -/
theorem sliceTo_read (r : ReadResult) (h1 : 1 ≤ r.data.length)
    (h2 : r.data.length ≤ maxBufferSize) :
    sliceTo r.buffer (r.n - 1) = some r.data.dropLast := by
  have hlen : r.buffer.length = maxBufferSize := by
    simp only [ReadResult.buffer, List.length_append, List.length_take, List.length_replicate]
    omega
  have hn : r.n = (r.data.length : Int) := by
    simp only [ReadResult.n]
    rw [Nat.min_eq_left h2]
  have hcond : 0 ≤ r.n - 1 ∧ r.n - 1 ≤ (r.buffer.length : Int) := by
    rw [hlen, hn]; omega
  have htn : (r.n - 1).toNat = r.data.length - 1 := by
    rw [hn]; omega
  unfold sliceTo
  rw [if_pos hcond, htn]
  simp only [ReadResult.buffer, List.take_of_length_le h2]
  rw [List.take_append_of_le_length (by omega), List.dropLast_eq_take]

/-- C10 fails on the code: a read that succeeds with `n = 0` bytes, as for an empty
datagram, makes the slice expression `buffer[:n-1]` the out-of-range `buffer[:-1]`.  The
datagram accept loop fails at run time there, and so does the stream handler if its read
returns no byte and no error. -/
theorem empty_read_crashes :
    (ReadResult.mk [] none).n = 0 ∧
      sliceTo (ReadResult.mk [] none).buffer ((ReadResult.mk [] none).n - 1) = none ∧
      AcceptUDP ⟨[], none⟩ peer = AcceptStep.crash ∧
      HandleTCP goEnv peer [⟨⟨[], none⟩, timeA, timeB, none⟩] = ([Event.read], Exit.crashed) := by
  refine ⟨by decide, by decide, by decide, by decide⟩

end NatTestServer
